import Mathlib

/-!
# Verification of the integration/reconciliation engine of the ETL orchestrator

This file gives a shallow embedding of the pure core of
`app/scripts/etl_orchestrator.py`: hostname normalization (`normalize_hostname`),
group classification (`determine_group`), and the reconciliation pipeline of
`DataLakehouseETL.process_integration_layer` (CVE explosion, projection of the
two source tables, the full outer join with merge indicator, provenance tagging
via `get_source_detection`, severity/status coalescing via `combine_first`, and
the per-group mitigation aggregation).

Nullable dataframe cells are modelled as `Option String` (`none` ≈ SQL NULL /
pandas NaN).  Python string primitives used by the code (`str()`, `.upper()`,
`.lower()`, `.split(sep)`, `.strip()`, `in`) are modelled by executable helper
functions prefixed `py`.
-/

/-- Models Python `str(x)` applied to a nullable dataframe cell: a real string
is unchanged, a missing value (pandas NaN) is stringified to the placeholder
`"nan"`. -/
def pyStr : Option String → String
  | some s => s
  | none => "nan"

/-- Models Python `.upper()` (ASCII letters, as produced by `Char.toUpper`). -/
def pyUpper (s : String) : String :=
  ⟨s.data.map Char.toUpper⟩

/-- Models Python `.lower()` (ASCII letters, as produced by `Char.toLower`). -/
def pyLower (s : String) : String :=
  ⟨s.data.map Char.toLower⟩

/-- Character-list version of Python `str.split(sep)` for a one-character
separator.  `[] ↦ [[]]`, matching Python's `"".split(',') == ['']`. -/
def pySplitList (sep : Char) : List Char → List (List Char)
  | [] => [[]]
  | c :: cs =>
    let r := pySplitList sep cs
    if c = sep then [] :: r
    else (c :: r.headD []) :: r.tail

/-- Models Python `s.split(sep)` for a one-character separator. -/
def pySplit (sep : Char) (s : String) : List String :=
  (pySplitList sep s.data).map fun l => ⟨l⟩

/-- Models Python `s.strip()`: drop whitespace from both ends. -/
def pyStrip (s : String) : String :=
  ⟨((s.data.dropWhile Char.isWhitespace).reverse.dropWhile Char.isWhitespace).reverse⟩

/-- Helper for `pyInStr`: scan every suffix for `sub` as a prefix. -/
def pyInStrAux (sub : List Char) : List Char → Bool
  | [] => sub.isEmpty
  | c :: cs => sub.isPrefixOf (c :: cs) || pyInStrAux sub cs

/-- Models the Python membership test `sub in s` (contiguous substring). -/
def pyInStr (sub s : String) : Bool :=
  pyInStrAux sub.data s.data

/-- `normalize_hostname` from `etl_orchestrator.py`:
`if not hostname or pd.isna(hostname): return "UNKNOWN"`;
`return str(hostname).upper().split('.')[0]`. -/
def normalize_hostname : Option String → String
  | none => "UNKNOWN"
  | some h => if h = "" then "UNKNOWN" else (pySplit '.' (pyUpper h)).headD ""

/-- `determine_group` from `etl_orchestrator.py`: uppercase the hostname, then
first-match-wins over the fixed keyword list, defaulting to `"OTROS"`. -/
def determine_group (hostname : String) : String :=
  let h := pyUpper hostname
  if pyInStr "UNICON" h then "UNICON"
  else if pyInStr "UNACEM" h then "UNACEM"
  else if pyInStr "CONCREMAX" h then "CONCREMAX"
  else if pyInStr "ARPL" h then "ARPL"
  else "OTROS"

/-- A row of `df_tenable` (the SQL join of `Tenable_Vulns_Raw` with
`Tenable_Assets_Raw`), restricted to the columns the integration layer uses. -/
structure TenableRow where
  hostname : Option String
  cve : Option String
  risk : Option String
  status : Option String
deriving DecidableEq, Repr

/-- A Tenable row after `df_tenable['cve'] = df_tenable['cve'].astype(str)`
and the split/explode step: the `cve` column now holds a plain string. -/
structure TenableRowS where
  hostname : Option String
  cve : String
  risk : Option String
  status : Option String
deriving DecidableEq, Repr

/-- A row of `df_vicarius` (the SQL join of `Vicarius_Incidents_Raw` with
`Vicarius_Endpoints_Raw`), restricted to the columns the integration layer
uses.  The `cve` column is nullable (non-CVE incidents). -/
structure VicariusRow where
  hostname : Option String
  cve : Option String
  severity : Option String
  status : Option String
deriving DecidableEq, Repr

/-- CVE explosion (`etl_orchestrator.py` lines 272–278): `astype(str)`,
`.str.split(',')`, `.explode('cve')`, `.str.strip()`.  Each source row yields
one row per comma-separated part, whitespace-trimmed. -/
def explodeTenable (rows : List TenableRow) : List TenableRowS :=
  rows.flatMap fun r =>
    (pySplit ',' (pyStr r.cve)).map fun c =>
      { hostname := r.hostname, cve := pyStrip c, risk := r.risk, status := r.status }

/-- A row of `t_cols`: the Tenable side projected to the join key and the
renamed value columns (`risk → severity_tenable`, `status → status_tenable`). -/
structure TKeyRow where
  hostname_norm : String
  cve : String
  severity_tenable : Option String
  status_tenable : Option String
deriving DecidableEq, Repr

/-- A row of `v_cols`: the Vicarius side projected to the join key and the
renamed value columns (`severity → severity_vicarius`,
`status → status_vicarius`). -/
structure VKeyRow where
  hostname_norm : String
  cve : Option String
  severity_vicarius : Option String
  status_vicarius : Option String
deriving DecidableEq, Repr

/-- Per-row normalization and projection of an (exploded) Tenable row. -/
def projectTenableRowS (r : TenableRowS) : TKeyRow :=
  { hostname_norm := normalize_hostname r.hostname
    cve := r.cve
    severity_tenable := r.risk
    status_tenable := r.status }

/-- Explosion, hostname normalization and projection of the Tenable side
(lines 272–295 of `etl_orchestrator.py`). -/
def projectTenable (rows : List TenableRow) : List TKeyRow :=
  (explodeTenable rows).map projectTenableRowS

/-- Per-row normalization and projection of a Vicarius row. -/
def projectVicariusRow (r : VicariusRow) : VKeyRow :=
  { hostname_norm := normalize_hostname r.hostname
    cve := r.cve
    severity_vicarius := r.severity
    status_vicarius := r.status }

/-- Hostname normalization and projection of the Vicarius side
(lines 286–296 of `etl_orchestrator.py`); incident rows are not exploded. -/
def projectVicarius (rows : List VicariusRow) : List VKeyRow :=
  rows.map projectVicariusRow

/-- The pandas merge indicator (`indicator=True`): the `_merge` column is a
categorical over exactly these three values. -/
inductive MergeInd where
  | both
  | left_only
  | right_only
deriving DecidableEq, Repr

/-- A row of `merged`: join key, both sides' value columns (filled with NaN on
the absent side), and the `_merge` indicator.  On the Tenable side the key's
`cve` is always a present string, so a merged row coming from the left has
`cve = some _`. -/
structure MergedRow where
  hostname_norm : String
  cve : Option String
  severity_tenable : Option String
  status_tenable : Option String
  severity_vicarius : Option String
  status_vicarius : Option String
  _merge : MergeInd
deriving DecidableEq, Repr

/-- Join-key equality for `pd.merge(..., on=['hostname_norm', 'cve'])`: the
left side's `cve` is a plain string, the right side's is nullable; a null
right key never equals a (stringified) left key. -/
def sameKey (a : TKeyRow) (b : VKeyRow) : Bool :=
  a.hostname_norm = b.hostname_norm && b.cve = some a.cve

/-- A matched (`both`) merged row: key and value columns from both sides. -/
def bothRow (a : TKeyRow) (b : VKeyRow) : MergedRow :=
  { hostname_norm := a.hostname_norm, cve := some a.cve
    severity_tenable := a.severity_tenable, status_tenable := a.status_tenable
    severity_vicarius := b.severity_vicarius, status_vicarius := b.status_vicarius
    _merge := MergeInd.both }

/-- An unmatched left (`left_only`) merged row: the Vicarius columns are NaN. -/
def leftRow (a : TKeyRow) : MergedRow :=
  { hostname_norm := a.hostname_norm, cve := some a.cve
    severity_tenable := a.severity_tenable, status_tenable := a.status_tenable
    severity_vicarius := none, status_vicarius := none
    _merge := MergeInd.left_only }

/-- An unmatched right (`right_only`) merged row: the Tenable columns are NaN. -/
def rightRow (b : VKeyRow) : MergedRow :=
  { hostname_norm := b.hostname_norm, cve := b.cve
    severity_tenable := none, status_tenable := none
    severity_vicarius := b.severity_vicarius, status_vicarius := b.status_vicarius
    _merge := MergeInd.right_only }

/-- The full outer join `pd.merge(t_cols, v_cols, on=['hostname_norm','cve'],
how='outer', indicator=True)` (lines 298–305 of `etl_orchestrator.py`), as the
multiset of result rows: each left row either cross-matches every key-equal
right row (`both`) or survives alone (`left_only`); unmatched right rows are
appended (`right_only`). -/
def mergeOuter (A : List TKeyRow) (B : List VKeyRow) : List MergedRow :=
  (A.flatMap fun a =>
    if (B.filter fun b => sameKey a b).isEmpty then [leftRow a]
    else (B.filter fun b => sameKey a b).map fun b => bothRow a b)
  ++ (B.filter fun b => !(A.any fun a => sameKey a b)).map rightRow

/-- `get_source_detection` from `process_integration_layer` (lines 307–311):
maps the `_merge` indicator to the provenance tag, with a fourth fallback
branch returning `'UNKNOWN'`. -/
def get_source_detection (row : MergedRow) : String :=
  if row._merge = MergeInd.both then "AMBAS"
  else if row._merge = MergeInd.left_only then "TENABLE_ONLY"
  else if row._merge = MergeInd.right_only then "VICARIUS_ONLY"
  else "UNKNOWN"

/-- Pandas `Series.combine_first` at one cell (lines 316–317): keep the left
value when it is present (non-null; an empty string is present), otherwise
take the right value. -/
def combine_first (a b : Option String) : Option String :=
  match a with
  | some v => some v
  | none => b

/-- A row of the unified fact table `Integracion_Fact_Unified_Vulns`
(line 321's column selection). -/
structure UnifiedFinding where
  hostname : String
  cve_id : Option String
  severity : Option String
  source_detection : String
  status : Option String
  group_name : String
deriving DecidableEq, Repr

/-- The per-row finalization of `merged` into `final_df` (lines 313–321):
provenance tag, coalesced severity and status, renamed key columns, group
assignment. -/
def unify_row (m : MergedRow) : UnifiedFinding :=
  { hostname := m.hostname_norm
    cve_id := m.cve
    severity := combine_first m.severity_tenable m.severity_vicarius
    source_detection := get_source_detection m
    status := combine_first m.status_tenable m.status_vicarius
    group_name := determine_group m.hostname_norm }

/-- The reconciliation pipeline of `process_integration_layer` (lines 272–321)
from the two extracted source tables to the unified fact table. -/
def reconcile (tenable : List TenableRow) (vicarius : List VicariusRow) :
    List UnifiedFinding :=
  (mergeOuter (projectTenable tenable) (projectVicarius vicarius)).map unify_row

/-- The resolved-status keyword set of `count_resolved` (line 332). -/
def resolvedKeywords : List String := ["mitigated", "fixed", "patched", "resolved"]

/-- `count_resolved` from `process_integration_layer` (lines 330–332): count
the statuses whose `str(s).lower()` is in the resolved keyword set.  A null
status stringifies to a placeholder (`"nan"`/`"None"`) that is never in the
set. -/
def count_resolved (statuses : List (Option String)) : Nat :=
  (statuses.filter fun s => decide (pyLower (pyStr s) ∈ resolvedKeywords)).length

/-- A row of the snapshot log `Integracion_Log_Mitigation_History` (without
the run date, which is wall-clock input).  The percentage is exact rational
arithmetic. -/
structure MitigationSnapshot where
  group_name : String
  total_detected : Nat
  total_resolved : Nat
  mitigation_percentage : ℚ
deriving DecidableEq, Repr

/-- The snapshot row the aggregation produces for one group value `g`
(lines 334–343): the group's row count, its resolved count per
`count_resolved`, and `mitigation_percentage = (resolved / detected) * 100`. -/
def aggRow (findings : List UnifiedFinding) (g : String) : MitigationSnapshot :=
  { group_name := g
    total_detected := (findings.filter fun f => decide (f.group_name = g)).length
    total_resolved :=
      count_resolved ((findings.filter fun f => decide (f.group_name = g)).map fun f => f.status)
    mitigation_percentage :=
      ((count_resolved ((findings.filter fun f => decide (f.group_name = g)).map fun f => f.status) : ℚ)
        / ((findings.filter fun f => decide (f.group_name = g)).length : ℚ)) * 100 }

/-- The per-group content of the aggregation step (lines 334–343):
`final_df.groupby('group_name')` emits one snapshot row per group value
present in the findings.  This captures the successful path only — it is
faithful whenever at least one group exists; the zero-group (empty findings)
error path of the Python code is modelled by `aggregate_stats` below. -/
def aggregate (findings : List UnifiedFinding) : List MitigationSnapshot :=
  ((findings.map fun f => f.group_name).dedup).map (aggRow findings)

/-- The full snapshot-statistics step (lines 334–343) including its failure
behaviour: on an empty findings table `groupby('group_name').apply` has zero
groups, so the per-group lambda never runs and the resulting `stats` frame
lacks the `total_detected`/`total_resolved` columns; line 343
(`stats['total_resolved'] / stats['total_detected']`) then raises `KeyError`
(or `reset_index` at line 339 raises `ValueError` in newer pandas).  Fallible
code is modelled with `Except`. -/
def aggregate_stats (findings : List UnifiedFinding) :
    Except String (List MitigationSnapshot) :=
  if findings.isEmpty then
    Except.error "KeyError: 'total_resolved'"
  else
    Except.ok (aggregate findings)


/-! ## Properties of the Python string helpers -/

theorem headD_pySplitList (sep : Char) (l : List Char) :
    (pySplitList sep l).headD [] = l.takeWhile fun c => decide (c ≠ sep) := by
  induction l with
  | nil => rfl
  | cons c cs ih =>
    by_cases h : c = sep
    · simp [pySplitList, h, List.takeWhile_cons]
    · simpa [pySplitList, h, List.takeWhile_cons] using ih

theorem pySplitList_ne_nil (sep : Char) (l : List Char) :
    pySplitList sep l ≠ [] := by
  cases l with
  | nil => simp [pySplitList]
  | cons c cs =>
    by_cases h : c = sep <;> simp [pySplitList, h]

theorem headD_pySplit (sep : Char) (s : String) :
    (pySplit sep s).headD "" = ⟨s.data.takeWhile fun c => decide (c ≠ sep)⟩ := by
  rw [pySplit, ← headD_pySplitList]
  cases hq : pySplitList sep s.data with
  | nil => exact absurd hq (pySplitList_ne_nil sep s.data)
  | cons x xs => simp

theorem char_toNat_ofNat_valid {n : Nat} (h : n.isValidChar) :
    (Char.ofNat n).toNat = n := by
  simp only [Char.ofNat, dif_pos h, Char.ofNatAux, Char.toNat]
  rfl

theorem toUpper_ne_dot {c : Char} (hc : c ≠ '.') : c.toUpper ≠ '.' := by
  unfold Char.toUpper
  by_cases h : c.toNat ≥ 97 ∧ c.toNat ≤ 122
  · rw [if_pos h]
    intro heq
    have hv : (c.toNat - 32).isValidChar := by
      left
      omega
    have hval := char_toNat_ofNat_valid hv
    rw [heq] at hval
    have h46 : ('.').toNat = 46 := rfl
    rw [h46] at hval
    omega
  · rw [if_neg h]
    exact hc

/-! ## C4: `normalize_hostname` -/

/-- C4 counterexample: a raw hostname that begins with `'.'` normalizes to the
empty string (the substring before the first `'.'` is empty), so the claim
that the result is non-empty for every input is false. -/
theorem normalize_hostname_leading_dot_empty :
    normalize_hostname (some ".web01.corp") = "" := by decide

/-- C4 (amended): `normalize_hostname` returns `"UNKNOWN"` for a null or empty
input, and otherwise the uppercased substring of the raw hostname before its
first `'.'`; the result is non-empty whenever the raw hostname does not begin
with `'.'` (a hostname starting with `'.'` yields the empty string). -/
theorem normalize_hostname_spec (s : String) (hne : s ≠ "")
    (hdot : s.data.head? ≠ some '.') :
    normalize_hostname none = "UNKNOWN" ∧
    normalize_hostname (some "") = "UNKNOWN" ∧
    normalize_hostname (some s)
      = ⟨(s.data.map Char.toUpper).takeWhile fun c => decide (c ≠ '.')⟩ ∧
    normalize_hostname (some s) ≠ "" := by
  have hdata : (pyUpper s).data = s.data.map Char.toUpper := rfl
  refine ⟨rfl, rfl, ?_, ?_⟩
  · rw [normalize_hostname, if_neg hne, headD_pySplit, hdata]
  · rw [normalize_hostname, if_neg hne, headD_pySplit, hdata]
    cases hl : s.data with
    | nil =>
      exact absurd (by cases s; simp_all) hne
    | cons c cs =>
      have hc : c ≠ '.' := by
        rw [hl] at hdot
        simpa using hdot
      have hcu := toUpper_ne_dot hc
      intro hcontra
      have hdc := congrArg String.data hcontra
      simp [List.takeWhile_cons, hcu] at hdc

/-- C4 witness: the amended theorem applied at `"web01.corp.local"`. -/
theorem normalize_hostname_spec_witness :
    normalize_hostname (some "web01.corp.local")
      = ⟨("web01.corp.local".data.map Char.toUpper).takeWhile fun c => decide (c ≠ '.')⟩ ∧
    normalize_hostname (some "web01.corp.local") ≠ "" :=
  ⟨(normalize_hostname_spec "web01.corp.local" (by decide) (by decide)).2.2.1,
   (normalize_hostname_spec "web01.corp.local" (by decide) (by decide)).2.2.2⟩

/-! ## Shared example data -/

/-- Source-A example: host H1 with findings for CVE1 and CVE2. -/
def exTenableRows : List TenableRow :=
  [{ hostname := some "H1", cve := some "CVE1", risk := some "3", status := some "ACTIVE" },
   { hostname := some "H1", cve := some "CVE2", risk := some "2", status := some "ACTIVE" }]

/-- Source-B example: host H1 with one incident for CVE1. -/
def exVicariusRows : List VicariusRow :=
  [{ hostname := some "H1", cve := some "CVE1", severity := some "HIGH",
     status := some "DetectedVulnerability" }]

/-! ## C2: `source_detection` is always one of the three partition tags -/

/-- C2: every row output by the reconciliation carries a `source_detection`
in `{AMBAS, TENABLE_ONLY, VICARIUS_ONLY}`, and the fourth (`'UNKNOWN'`) branch
of `get_source_detection` is unreachable: no merge indicator value maps to it. -/
theorem source_detection_in_partition (A : List TenableRow) (B : List VicariusRow) :
    (∀ r ∈ reconcile A B,
       r.source_detection ∈ (["AMBAS", "TENABLE_ONLY", "VICARIUS_ONLY"] : List String)) ∧
    (∀ m : MergedRow, get_source_detection m ≠ "UNKNOWN") := by
  have htag : ∀ m : MergedRow,
      get_source_detection m ∈ (["AMBAS", "TENABLE_ONLY", "VICARIUS_ONLY"] : List String) := by
    intro m
    cases hm : m._merge <;> simp [get_source_detection, hm]
  constructor
  · intro r hr
    obtain ⟨m, _, rfl⟩ := List.mem_map.1 hr
    exact htag m
  · intro m
    have := htag m
    intro hcontra
    rw [hcontra] at this
    simp at this

/-- C2 witness: the theorem applied to the example inputs at a concrete
output row. -/
theorem source_detection_in_partition_witness :
    ({ hostname := "H1", cve_id := some "CVE1", severity := some "3",
       source_detection := "AMBAS", status := some "ACTIVE",
       group_name := "OTROS" } : UnifiedFinding).source_detection
      ∈ (["AMBAS", "TENABLE_ONLY", "VICARIUS_ONLY"] : List String) :=
  (source_detection_in_partition exTenableRows exVicariusRows).1 _ (by decide)

/-! ## C3: severity/status coalescing prefers the Tenable value -/

/-- The spec's coalescing policy, stated in its own words: take the source-A
value when it is present (non-null; an empty string counts as present),
otherwise the source-B value. -/
def coalesceSpec (a b : Option String) : Option String :=
  if a.isSome then a else b

/-- C3: for every joined row, the unified `severity` is the Tenable severity
when present and otherwise the Vicarius severity, and likewise for `status`;
an empty string is present and is not coalesced away.  The reconciliation
output is exactly the per-row finalization of all joined rows. -/
theorem coalesce_prefers_tenable :
    (∀ A B, reconcile A B = (mergeOuter (projectTenable A) (projectVicarius B)).map unify_row) ∧
    (∀ m : MergedRow,
       (unify_row m).severity = coalesceSpec m.severity_tenable m.severity_vicarius ∧
       (unify_row m).status = coalesceSpec m.status_tenable m.status_vicarius) ∧
    (∀ b : Option String, combine_first (some "") b = some "") := by
  refine ⟨fun A B => rfl, ?_, fun b => rfl⟩
  intro m
  constructor
  · cases h : m.severity_tenable <;> simp [unify_row, combine_first, coalesceSpec, h]
  · cases h : m.status_tenable <;> simp [unify_row, combine_first, coalesceSpec, h]

/-! ## C7: empty-source degradation -/

/-- C7: with an empty Tenable side the reconciliation yields exactly one row
per incident record, all tagged `VICARIUS_ONLY`; symmetrically, with an empty
Vicarius side every output row is tagged `TENABLE_ONLY`.  The pipeline is a
total function, so no exception is possible. -/
theorem empty_source_degradation (B : List VicariusRow) :
    (reconcile [] B).length = B.length ∧
    (∀ r ∈ reconcile [] B, r.source_detection = "VICARIUS_ONLY") ∧
    (∀ A : List TenableRow, ∀ r ∈ reconcile A [], r.source_detection = "TENABLE_ONLY") := by
  have hA : projectTenable ([] : List TenableRow) = [] := rfl
  have hmergeB : mergeOuter [] (projectVicarius B) = (projectVicarius B).map rightRow := by
    simp [mergeOuter]
  refine ⟨?_, ?_, ?_⟩
  · rw [reconcile, hA, hmergeB]
    simp [projectVicarius]
  · intro r hr
    rw [reconcile, hA, hmergeB] at hr
    simp only [List.map_map, List.mem_map] at hr
    obtain ⟨v, _, rfl⟩ := hr
    simp [Function.comp, unify_row, get_source_detection, rightRow]
  · intro A r hr
    have hmergeA : mergeOuter (projectTenable A) [] =
        (projectTenable A).flatMap fun a => [leftRow a] := by
      simp [mergeOuter]
    rw [reconcile] at hr
    have hV : projectVicarius [] = [] := rfl
    rw [hV, hmergeA] at hr
    simp only [List.mem_map, List.mem_flatMap, List.mem_singleton] at hr
    obtain ⟨m, ⟨a, _, rfl⟩, rfl⟩ := hr
    simp [unify_row, get_source_detection, leftRow]

/-- C7 witness: the theorem applied to the one-incident example list with an
empty Tenable side. -/
theorem empty_source_degradation_witness :
    (reconcile [] exVicariusRows).length = exVicariusRows.length ∧
    ({ hostname := "H1", cve_id := some "CVE1", severity := some "HIGH",
       source_detection := "VICARIUS_ONLY", status := some "DetectedVulnerability",
       group_name := "OTROS" } : UnifiedFinding).source_detection = "VICARIUS_ONLY" :=
  ⟨(empty_source_degradation exVicariusRows).1,
   (empty_source_degradation exVicariusRows).2.1 _ (by decide)⟩

/-! ## C1: full-outer-join cardinality -/

/-- The number of key-matched row pairs of the join (cross product within each
key group). -/
def matchedCount (A : List TKeyRow) (B : List VKeyRow) : Nat :=
  (A.map fun a => (B.filter fun b => sameKey a b).length).sum

/-- The number of left rows with no key partner. -/
def leftOnlyCount (A : List TKeyRow) (B : List VKeyRow) : Nat :=
  (A.filter fun a => !(B.any fun b => sameKey a b)).length

/-- The number of right rows with no key partner. -/
def rightOnlyCount (A : List TKeyRow) (B : List VKeyRow) : Nat :=
  (B.filter fun b => !(A.any fun a => sameKey a b)).length

theorem isEmpty_filter_eq_not_any {α : Type} (p : α → Bool) (l : List α) :
    (l.filter p).isEmpty = !(l.any p) := by
  induction l with
  | nil => rfl
  | cons x xs ih =>
    cases h : p x
    · simp [List.filter_cons, h, ih]
    · simp [List.filter_cons, h]

theorem length_mergeOuter_left (A : List TKeyRow) (B : List VKeyRow) :
    (A.flatMap fun a =>
      if (B.filter fun b => sameKey a b).isEmpty then [leftRow a]
      else (B.filter fun b => sameKey a b).map fun b => bothRow a b).length
    = matchedCount A B + leftOnlyCount A B := by
  have hf : ∀ a : TKeyRow,
      (if (B.filter fun b => sameKey a b).isEmpty then [leftRow a]
       else (B.filter fun b => sameKey a b).map fun b => bothRow a b).length
      = (B.filter fun b => sameKey a b).length
        + (if (B.filter fun b => sameKey a b).isEmpty then 1 else 0) := by
    intro a
    cases hE : (B.filter fun b => sameKey a b).isEmpty
    · simp [hE]
    · have hn0 : (B.filter fun b => sameKey a b).length = 0 := by
        rw [List.isEmpty_iff] at hE
        rw [hE]
        rfl
      simp [hE, hn0]
  induction A with
  | nil => simp [matchedCount, leftOnlyCount]
  | cons a as ih =>
    have hm : matchedCount (a :: as) B
        = (B.filter fun b => sameKey a b).length + matchedCount as B := by
      simp [matchedCount]
    have hna : (!(B.any fun b => sameKey a b)) = (B.filter fun b => sameKey a b).isEmpty :=
      (isEmpty_filter_eq_not_any _ B).symm
    have hlc : leftOnlyCount (a :: as) B
        = (if (B.filter fun b => sameKey a b).isEmpty then 1 else 0) + leftOnlyCount as B := by
      simp only [leftOnlyCount, List.filter_cons, hna]
      cases hE : (B.filter fun b => sameKey a b).isEmpty <;> simp [Nat.add_comm]
    rw [List.flatMap_cons, List.length_append, ih, hf a, hm, hlc]
    omega

theorem length_mergeOuter (A : List TKeyRow) (B : List VKeyRow) :
    (mergeOuter A B).length = matchedCount A B + leftOnlyCount A B + rightOnlyCount A B := by
  rw [mergeOuter, List.length_append, length_mergeOuter_left, List.length_map, rightOnlyCount]

/-- C1 counterexample: on the claim's own example (source A has `(H1,CVE1)`
and `(H1,CVE2)`, source B has `(H1,CVE1)`), the reconciliation outputs 2 rows
(`1` matched + `1` left-only + `0` right-only), not the 3 rows the claim
states. -/
theorem reconcile_example_not_three_rows :
    (reconcile exTenableRows exVicariusRows).length = 2 ∧
    (reconcile exTenableRows exVicariusRows).length ≠ 3 := by
  refine ⟨?_, ?_⟩ <;> decide

/-- C1 (amended): the reconciliation is a full outer join on the composite key
`(hostname_normalized, cve_id)` with the standard cardinality
`|matched| + |left-only| + |right-only|`, where duplicate keys produce a
cross-product of matches; on the claim's example the output is exactly 2 rows:
one tagged `AMBAS` (BOTH) for CVE1, one tagged `TENABLE_ONLY` (SOURCE_A_ONLY)
for CVE2, and none tagged `VICARIUS_ONLY` (SOURCE_B_ONLY). -/
theorem reconcile_join_cardinality :
    (∀ (A : List TenableRow) (B : List VicariusRow),
       (reconcile A B).length =
         matchedCount (projectTenable A) (projectVicarius B)
           + leftOnlyCount (projectTenable A) (projectVicarius B)
           + rightOnlyCount (projectTenable A) (projectVicarius B)) ∧
    (reconcile exTenableRows exVicariusRows).length = 2 ∧
    (reconcile exTenableRows exVicariusRows).countP
      (fun r => decide (r.source_detection = "AMBAS" ∧ r.cve_id = some "CVE1")) = 1 ∧
    (reconcile exTenableRows exVicariusRows).countP
      (fun r => decide (r.source_detection = "TENABLE_ONLY" ∧ r.cve_id = some "CVE2")) = 1 ∧
    (reconcile exTenableRows exVicariusRows).countP
      (fun r => decide (r.source_detection = "VICARIUS_ONLY")) = 0 := by
  refine ⟨?_, by decide, by decide, by decide, by decide⟩
  intro A B
  rw [reconcile, List.length_map, length_mergeOuter]

/-! ## C5: CVE explosion -/

/-- C5: the CVE explosion splits each Tenable record's (stringified) `cve` on
`','`, trims whitespace from each part and emits one record per part; the
claim's example record explodes into exactly two records; Vicarius incident
records are never exploded: the projected incident table has one row per
incident with its `cve` unchanged. -/
theorem cve_explosion_spec :
    (∀ rows : List TenableRow,
       (explodeTenable rows).map (fun r => r.cve)
         = rows.flatMap fun r => (pySplit ',' (pyStr r.cve)).map pyStrip) ∧
    ((explodeTenable
        [{ hostname := some "web01", cve := some "CVE-2023-1,CVE-2023-2",
           risk := some "3", status := some "ACTIVE" }]).map (fun r => r.cve)
       = ["CVE-2023-1", "CVE-2023-2"]) ∧
    (∀ vs : List VicariusRow,
       (projectVicarius vs).map (fun v => v.cve) = vs.map fun v => v.cve) := by
  refine ⟨?_, by decide, ?_⟩
  · intro rows
    rw [explodeTenable, List.map_flatMap]
    congr 1
    funext r
    rw [List.map_map]
    rfl
  · intro vs
    rw [projectVicarius, List.map_map]
    rfl

/-! ## C6: null-CVE incidents stay Vicarius-only -/

/-- C6: an incident record with a null `cve` matches no Tenable-side key
(Tenable CVEs are stringified before joining, so their keys are always
present strings), appears in the unified output tagged `VICARIUS_ONLY`, and in
general every output row with a null `cve_id` is tagged `VICARIUS_ONLY`. -/
theorem null_cve_incident_is_vicarius_only (A : List TenableRow) (B : List VicariusRow)
    (b : VicariusRow) (hb : b ∈ B) (hcve : b.cve = none) :
    (∀ a ∈ projectTenable A, sameKey a (projectVicariusRow b) = false) ∧
    (∃ r ∈ reconcile A B, r.source_detection = "VICARIUS_ONLY" ∧ r.cve_id = none ∧
       r.hostname = normalize_hostname b.hostname) ∧
    (∀ r ∈ reconcile A B, r.cve_id = none → r.source_detection = "VICARIUS_ONLY") := by
  have h1 : ∀ a : TKeyRow, sameKey a (projectVicariusRow b) = false := by
    intro a
    simp [sameKey, projectVicariusRow, hcve]
  refine ⟨fun a _ => h1 a, ?_, ?_⟩
  · have hpv : projectVicariusRow b ∈ projectVicarius B := List.mem_map_of_mem _ hb
    have hfilter : projectVicariusRow b ∈
        (projectVicarius B).filter fun v => !((projectTenable A).any fun a => sameKey a v) := by
      refine List.mem_filter.2 ⟨hpv, ?_⟩
      have hany : ((projectTenable A).any fun a => sameKey a (projectVicariusRow b)) = false :=
        List.any_eq_false.2 fun a _ => by simp [h1 a]
      simp [hany]
    have hm : rightRow (projectVicariusRow b) ∈
        mergeOuter (projectTenable A) (projectVicarius B) := by
      rw [mergeOuter]
      exact List.mem_append_right _ (List.mem_map_of_mem _ hfilter)
    refine ⟨unify_row (rightRow (projectVicariusRow b)), List.mem_map_of_mem _ hm, ?_, ?_, ?_⟩
    · simp [unify_row, get_source_detection, rightRow]
    · simp [unify_row, rightRow, projectVicariusRow, hcve]
    · simp [unify_row, rightRow, projectVicariusRow]
  · intro r hr hnone
    obtain ⟨m, hm, rfl⟩ := List.mem_map.1 hr
    rcases List.mem_append.1 hm with hL | hR
    · obtain ⟨a, _, hma⟩ := List.mem_flatMap.1 hL
      split at hma
      · rw [List.mem_singleton] at hma
        subst hma
        simp [unify_row, leftRow] at hnone
      · obtain ⟨v, _, hbv⟩ := List.mem_map.1 hma
        subst hbv
        simp [unify_row, bothRow] at hnone
    · obtain ⟨v, _, rfl⟩ := List.mem_map.1 hR
      simp [unify_row, get_source_detection, rightRow]

/-- A Vicarius incident list whose single record has a null `cve`. -/
def exNullCveRows : List VicariusRow :=
  [{ hostname := some "H2", cve := none, severity := some "LOW",
     status := some "DetectedVulnerability" }]

/-- C6 witness: the theorem applied to a concrete null-CVE incident. -/
theorem null_cve_incident_witness :
    ∃ r ∈ reconcile exTenableRows exNullCveRows,
      r.source_detection = "VICARIUS_ONLY" ∧ r.cve_id = none ∧
      r.hostname = normalize_hostname (some "H2") :=
  (null_cve_incident_is_vicarius_only exTenableRows exNullCveRows
    { hostname := some "H2", cve := none, severity := some "LOW",
      status := some "DetectedVulnerability" } (by decide) rfl).2.1

/-! ## C10: blank/missing CVE yields one placeholder record, preserved -/

theorem mem_mergeOuter_left_key (A : List TKeyRow) (B : List VKeyRow) (a : TKeyRow)
    (ha : a ∈ A) :
    ∃ m ∈ mergeOuter A B, m.hostname_norm = a.hostname_norm ∧ m.cve = some a.cve := by
  cases hE : (B.filter fun b => sameKey a b).isEmpty
  · have hne : (B.filter fun b => sameKey a b) ≠ [] := by
      intro hnil
      rw [hnil] at hE
      simp at hE
    obtain ⟨b', hb'⟩ := List.exists_mem_of_ne_nil _ hne
    refine ⟨bothRow a b', ?_, rfl, rfl⟩
    rw [mergeOuter]
    refine List.mem_append_left _ (List.mem_flatMap.2 ⟨a, ha, ?_⟩)
    rw [if_neg (by simp [hE])]
    exact List.mem_map_of_mem _ hb'
  · refine ⟨leftRow a, ?_, rfl, rfl⟩
    rw [mergeOuter]
    refine List.mem_append_left _ (List.mem_flatMap.2 ⟨a, ha, ?_⟩)
    rw [if_pos hE]
    simp

/-- C10: a Tenable record whose `cve` is missing or blank explodes into
exactly one record whose `cve` becomes the stringified placeholder (`"nan"`
for a missing value, `""` for a blank string), and the finding is preserved
in the unified table: some output row carries its normalized hostname and
that placeholder CVE. -/
theorem blank_cve_one_record_preserved (r : TenableRow) (A : List TenableRow)
    (B : List VicariusRow) (hr : r ∈ A) (hblank : r.cve = none ∨ r.cve = some "") :
    (explodeTenable [r]).length = 1 ∧
    (explodeTenable [r]).map (fun x => x.cve) = [pyStr r.cve] ∧
    ∃ u ∈ reconcile A B, u.hostname = normalize_hostname r.hostname ∧
      u.cve_id = some (pyStr r.cve) := by
  have hsplit : pySplit ',' (pyStr r.cve) = [pyStr r.cve] := by
    rcases hblank with h | h <;> rw [h] <;> rfl
  have hstrip : pyStrip (pyStr r.cve) = pyStr r.cve := by
    rcases hblank with h | h <;> rw [h] <;> rfl
  have hexp : explodeTenable [r]
      = [{ hostname := r.hostname, cve := pyStr r.cve,
           risk := r.risk, status := r.status }] := by
    rw [explodeTenable]
    simp [hsplit, hstrip]
  refine ⟨by rw [hexp]; rfl, by rw [hexp]; rfl, ?_⟩
  have her : ({ hostname := r.hostname, cve := pyStr r.cve, risk := r.risk,
                status := r.status } : TenableRowS) ∈ explodeTenable A := by
    rw [explodeTenable]
    refine List.mem_flatMap.2 ⟨r, hr, ?_⟩
    rw [hsplit]
    simp [hstrip]
  have ha : projectTenableRowS { hostname := r.hostname, cve := pyStr r.cve,
                                 risk := r.risk, status := r.status } ∈ projectTenable A :=
    List.mem_map_of_mem _ her
  obtain ⟨m, hm, hh, hc⟩ := mem_mergeOuter_left_key _ (projectVicarius B) _ ha
  refine ⟨unify_row m, List.mem_map_of_mem _ hm, ?_, ?_⟩
  · simp [unify_row, hh, projectTenableRowS]
  · simp [unify_row, hc, projectTenableRowS]

/-- A Tenable record with a missing CVE. -/
def exBlankCveRow : TenableRow :=
  { hostname := some "H9", cve := none, risk := some "1", status := some "open" }

/-- C10 witness: the theorem applied to a concrete missing-CVE record. -/
theorem blank_cve_witness :
    (explodeTenable [exBlankCveRow]).length = 1 ∧
    (explodeTenable [exBlankCveRow]).map (fun x => x.cve) = [pyStr exBlankCveRow.cve] ∧
    ∃ u ∈ reconcile [exBlankCveRow] [], u.hostname = normalize_hostname exBlankCveRow.hostname ∧
      u.cve_id = some (pyStr exBlankCveRow.cve) :=
  blank_cve_one_record_preserved exBlankCveRow [exBlankCveRow] [] (by decide) (Or.inl rfl)

/-! ## C8 and C9: aggregation and the mitigation percentage -/

/-- Ten findings in group `ARPL`, four of which carry a resolved status
(`mitigated`/`fixed`/`patched`/`resolved`, case-insensitive). -/
def exFs8 : List UnifiedFinding :=
  [{ hostname := "ARPL-01", cve_id := some "CVE-1", severity := some "3",
     source_detection := "AMBAS", status := some "Mitigated", group_name := "ARPL" },
   { hostname := "ARPL-01", cve_id := some "CVE-2", severity := some "3",
     source_detection := "AMBAS", status := some "fixed", group_name := "ARPL" },
   { hostname := "ARPL-02", cve_id := some "CVE-3", severity := some "2",
     source_detection := "TENABLE_ONLY", status := some "PATCHED", group_name := "ARPL" },
   { hostname := "ARPL-02", cve_id := some "CVE-4", severity := some "2",
     source_detection := "TENABLE_ONLY", status := some "Resolved", group_name := "ARPL" },
   { hostname := "ARPL-03", cve_id := some "CVE-5", severity := some "1",
     source_detection := "VICARIUS_ONLY", status := some "ACTIVE", group_name := "ARPL" },
   { hostname := "ARPL-03", cve_id := some "CVE-6", severity := some "1",
     source_detection := "VICARIUS_ONLY", status := some "open", group_name := "ARPL" },
   { hostname := "ARPL-04", cve_id := some "CVE-7", severity := none,
     source_detection := "AMBAS", status := none, group_name := "ARPL" },
   { hostname := "ARPL-04", cve_id := some "CVE-8", severity := some "4",
     source_detection := "AMBAS", status := some "NEW", group_name := "ARPL" },
   { hostname := "ARPL-05", cve_id := some "CVE-9", severity := some "4",
     source_detection := "TENABLE_ONLY", status := some "fixable", group_name := "ARPL" },
   { hostname := "ARPL-05", cve_id := some "CVE-10", severity := some "4",
     source_detection := "VICARIUS_ONLY", status := some "ACTIVE", group_name := "ARPL" }]

/-- C8: `aggregate` emits exactly one snapshot row per `group_name` value
present in the findings (groups with no findings are omitted); each row's
`total_detected` is the group's finding count, `total_resolved` its count of
findings whose lowercased status is in the resolved-keyword set, and
`mitigation_percentage = (total_resolved / total_detected) * 100`. -/
theorem aggregate_spec (fs : List UnifiedFinding) :
    ((aggregate fs).map (fun s => s.group_name) = (fs.map fun f => f.group_name).dedup) ∧
    (∀ g : String, (∃ s ∈ aggregate fs, s.group_name = g) ↔ g ∈ fs.map fun f => f.group_name) ∧
    (∀ s ∈ aggregate fs,
       s.total_detected = (fs.filter fun f => decide (f.group_name = s.group_name)).length ∧
       s.total_resolved =
         count_resolved
           ((fs.filter fun f => decide (f.group_name = s.group_name)).map fun f => f.status) ∧
       s.mitigation_percentage
         = ((s.total_resolved : ℚ) / (s.total_detected : ℚ)) * 100) := by
  have hmap : (aggregate fs).map (fun s => s.group_name)
      = (fs.map fun f => f.group_name).dedup := by
    rw [aggregate, List.map_map]
    exact List.map_id _
  refine ⟨hmap, ?_, ?_⟩
  · intro g
    constructor
    · rintro ⟨s, hs, rfl⟩
      rw [← List.mem_dedup, ← hmap]
      exact List.mem_map_of_mem _ hs
    · intro hg
      rw [← List.mem_dedup, ← hmap] at hg
      obtain ⟨s, hs, hsg⟩ := List.mem_map.1 hg
      exact ⟨s, hs, hsg⟩
  · intro s hs
    obtain ⟨g, hg, rfl⟩ := List.mem_map.1 hs
    exact ⟨rfl, rfl, rfl⟩

/-- C8 witness: on the ten-finding `ARPL` example, the snapshot row has
`total_detected = 10`, `total_resolved = 4`, `mitigation_percentage = 40`. -/
theorem aggregate_spec_witness :
    ∃ s ∈ aggregate exFs8, s.total_detected = 10 ∧ s.total_resolved = 4 ∧
      s.mitigation_percentage = 40 := by
  obtain ⟨s, hs, hg⟩ := ((aggregate_spec exFs8).2.1 "ARPL").2 (by decide)
  obtain ⟨hd, hr, hp⟩ := (aggregate_spec exFs8).2.2 s hs
  rw [hg] at hd hr
  have h1 : s.total_detected = 10 := by rw [hd]; decide
  have h2 : s.total_resolved = 4 := by rw [hr]; decide
  refine ⟨s, hs, h1, h2, ?_⟩
  rw [hp, h1, h2]
  norm_num

/-- C9: the claim fails on the code at exactly the input it singles out: on
the empty findings sequence the aggregation step errors (missing-column
`KeyError`) instead of applying any local fallback.  The divide-by-zero case
proper is unreachable: every snapshot row the step ever returns aggregates a
group value present in the findings, so its `total_detected` is positive and
the division is well-defined. -/
theorem aggregate_stats_raises_on_empty :
    aggregate_stats [] = Except.error "KeyError: 'total_resolved'" ∧
    (∀ fs : List UnifiedFinding, ∀ out, aggregate_stats fs = Except.ok out →
       ∀ s ∈ out, 0 < s.total_detected) := by
  refine ⟨rfl, ?_⟩
  intro fs out hok s hs
  rw [aggregate_stats] at hok
  split at hok
  · exact absurd hok (by simp)
  · obtain rfl : aggregate fs = out := by injection hok
    obtain ⟨g, hg, rfl⟩ := List.mem_map.1 hs
    rw [List.mem_dedup] at hg
    obtain ⟨f, hf, hfg⟩ := List.mem_map.1 hg
    have hmem : f ∈ fs.filter fun f0 => decide (f0.group_name = g) :=
      List.mem_filter.2 ⟨hf, by simp [hfg]⟩
    exact List.length_pos.2 (List.ne_nil_of_mem hmem)

/-- C9 witness: the theorem applied to the ten-finding example, whose
aggregation succeeds and whose snapshot has a positive `total_detected`. -/
theorem aggregate_stats_raises_on_empty_witness :
    0 < (aggRow exFs8 "ARPL").total_detected :=
  aggregate_stats_raises_on_empty.2 exFs8 (aggregate exFs8) rfl (aggRow exFs8 "ARPL")
    (List.mem_map_of_mem _ (by decide))
